import Mathlib

/-!
Verification development for the spec-kit command & capability dispatch core
(`specify_cli/services/command_registry.py`, `command_executor.py`,
`agent_registry.py`), shallowly embedded in Lean.

Modelling conventions:
* Python strings are Lean `String`s; Python `dict`s (which preserve insertion
  order and update keys in place) are association lists with in-place update.
* Python exceptions are `Except String` values carrying `str(e)`.
* Python object identity (the registry stores the *same* entry object under a
  primary name and its aliases, and `enable_command` mutates that shared
  object) is modelled with a store of entries addressed by `Nat` references.
* Wall-clock data (`execution_time`, `created_at`, `updated_at`,
  `datetime.now()`) is not modelled except where an envelope must carry a
  timestamp, in which case the current time is threaded in as an input.
* Quote characters are built with `Char.ofNat` (39 = single quote,
  34 = double quote) so error-message strings match the Python source.
-/

set_option autoImplicit false

namespace SpecKit

/-- The single-quote character, `Char.ofNat 39`. -/
def sq : String := String.singleton (Char.ofNat 39)

/-- The double-quote character, `Char.ofNat 34`. -/
def dq : String := String.singleton (Char.ofNat 34)

/-! Core `String` operations (`trim`, `toLower`, `contains`, `startsWith`,
`drop`) are implemented over the character list so that they reduce inside
the kernel; each mirrors the corresponding Python `str` method. -/

/-- Python `s.strip()`. -/
def pyStrip (s : String) : String :=
  String.mk
    (((s.data.dropWhile Char.isWhitespace).reverse.dropWhile
        Char.isWhitespace).reverse)

/-- Python `s.lower()` (ASCII, which is all the source compares). -/
def pyLower (s : String) : String := String.mk (s.data.map Char.toLower)

/-- Python `c in s` for a single-character needle. -/
def pyContainsChar (s : String) (c : Char) : Bool := s.data.contains c

/-- Prefix test on character lists. -/
def listStartsWith : List Char → List Char → Bool
  | _, [] => true
  | [], _ :: _ => false
  | c :: cs, p :: ps => c == p && listStartsWith cs ps

/-- Python `s.startswith(p)`. -/
def pyStartsWith (s p : String) : Bool := listStartsWith s.data p.data

/-- Python `s[n:]` (character-based slicing). -/
def pyDrop (s : String) (n : Nat) : String := String.mk (s.data.drop n)

/-! ### Association lists with Python-`dict` semantics -/

/-- `d[k]` lookup: first binding wins (keys are unique in states built by the
API, mirroring a Python `dict`). -/
def alookup {α : Type} : List (String × α) → String → Option α
  | [], _ => none
  | (k, v) :: rest, key => if k = key then some v else alookup rest key

/-- `d[k] = v`: update in place if the key exists, else append (Python dicts
preserve insertion order). -/
def ainsert {α : Type} (d : List (String × α)) (key : String) (v : α) :
    List (String × α) :=
  match d with
  | [] => [(key, v)]
  | (k, w) :: rest =>
    if k = key then (k, v) :: rest else (k, w) :: ainsert rest key v

/-- `del d[k]`: remove the first binding of `key` (the only one, for states
with unique keys). -/
def aremove {α : Type} : List (String × α) → String → List (String × α)
  | [], _ => []
  | (k, w) :: rest, key =>
    if k = key then rest else (k, w) :: aremove rest key

/-- Python `list.index`: index of the first element equal to `a` (the source
only calls it on elements drawn from the list, so the out-of-bounds result is
never reached). -/
def pyIndex {α : Type} [DecidableEq α] : List α → α → Nat
  | [], _ => 0
  | x :: xs, a => if x = a then 0 else pyIndex xs a + 1

/-- Python `'; '.join(errors)`. -/
def joinSemi : List String → String
  | [] => ""
  | [x] => x
  | x :: xs => x ++ "; " ++ joinSemi xs

/-! ### Scalar values produced by the parser

The parser only ever produces booleans, ints, floats, `None` and strings.
A float is modelled by the exact decimal value read off its literal,
`mantissa * 10 ^ exp10` (every literal appearing in the development is
exactly representable, so the model agrees with IEEE semantics on them; the
core never computes with float values, it only constructs and forwards
them). -/

structure PyFloat : Type where
  mantissa : Int
  exp10 : Int
  deriving DecidableEq

inductive Value : Type where
  | bool (b : Bool)
  | int (n : Int)
  | float (f : PyFloat)
  | null
  | str (s : String)
  deriving DecidableEq

/-- Python truthiness of the scalar values above. -/
def pyTruthy : Value → Bool
  | .bool b => b
  | .int n => n != 0
  | .float f => f.mantissa != 0
  | .null => false
  | .str s => s != ""

/-- Digit run → value, `none` unless the run is non-empty and all digits. -/
def digitsVal : List Char → Option Nat
  | [] => none
  | [c] => if c.isDigit then some (c.toNat - 48) else none
  | c :: cs =>
    if c.isDigit then
      (digitsVal cs).map (fun n => (c.toNat - 48) * 10 ^ cs.length + n)
    else none

/-- Python `int(s)` on the token forms the parser can meet: surrounding
whitespace stripped, optional sign, decimal digits.  (Underscore separators
and non-ASCII digits, which `int` also accepts, are not modelled; they do not
occur in command tokens.) -/
def pyInt (s : String) : Option Int :=
  match (pyStrip s).data with
  | '+' :: ds => (digitsVal ds).map Int.ofNat
  | '-' :: ds => (digitsVal ds).map (fun n => -(n : Int))
  | ds => (digitsVal ds).map Int.ofNat

/-- Grammar helper for `pyFloat`: mantissa digits with at most one point,
returning the mantissa as a natural number together with the number of
fractional digits, then an optional exponent part. -/
def floatCore (cs : List Char) : Option (Nat × Nat × Int) :=
  let ip := cs.takeWhile Char.isDigit
  let rest := cs.dropWhile Char.isDigit
  let afterMant : Option (Nat × Nat × List Char) :=
    match rest with
    | '.' :: rest2 =>
      let fp := rest2.takeWhile Char.isDigit
      let rest3 := rest2.dropWhile Char.isDigit
      if ip.isEmpty && fp.isEmpty then none
      else some ((digitsVal (ip ++ fp)).getD 0, fp.length, rest3)
    | _ =>
      if ip.isEmpty then none else some ((digitsVal ip).getD 0, 0, rest)
  match afterMant with
  | none => none
  | some (m, fl, rest3) =>
    match rest3 with
    | [] => some (m, fl, 0)
    | 'e' :: es =>
      (match es with
       | '+' :: ds => (digitsVal ds).map (fun e => (m, fl, (e : Int)))
       | '-' :: ds => (digitsVal ds).map (fun e => (m, fl, -(e : Int)))
       | ds => (digitsVal ds).map (fun e => (m, fl, (e : Int))))
    | 'E' :: es =>
      (match es with
       | '+' :: ds => (digitsVal ds).map (fun e => (m, fl, (e : Int)))
       | '-' :: ds => (digitsVal ds).map (fun e => (m, fl, -(e : Int)))
       | ds => (digitsVal ds).map (fun e => (m, fl, (e : Int))))
    | _ => none

/-- Python `float(s)` on decimal tokens: optional sign, digits with an
optional point (at least one digit overall), optional exponent.  (`inf`/`nan`
spellings contain no `.` and hence are never routed to `float` by the source;
underscore separators are not modelled.) -/
def pyFloat (s : String) : Option PyFloat :=
  let run : List Char → Option PyFloat := fun cs =>
    (floatCore cs).map (fun (m, fl, e) => ⟨(m : Int), e - (fl : Int)⟩)
  match (pyStrip s).data with
  | '+' :: cs => run cs
  | '-' :: cs => (run cs).map (fun f => ⟨-f.mantissa, f.exp10⟩)
  | cs => run cs

/-- `CommandExecutor._parse_value`: boolean words, then numeric (float when
the token contains a point, else int, falling through on parse failure), then
null words, else the string itself. -/
def parseValue (v : String) : Value :=
  if pyLower v = "true" ∨ pyLower v = "false" then .bool (pyLower v = "true")
  else
    match (if pyContainsChar v '.' then (pyFloat v).map Value.float
           else (pyInt v).map Value.int) with
    | some val => val
    | none =>
      if pyLower v = "none" ∨ pyLower v = "null" then .null else .str v

/-! ### Shell tokenization (`shlex.split`) and the command-string parser -/

/-- Tokenizer state: between/inside a plain token, or inside a quoted span
opened by the given quote character. -/
inductive SMode : Type where
  | normal
  | inQuote (q : Char)
  deriving DecidableEq

/-- One-pass model of `shlex.split` (POSIX mode): whitespace separates
tokens; a single- or double-quoted span is one token fragment; an unclosed
quote raises `ValueError("No closing quotation")`.  Backslash escapes, which
do not occur in any input considered here, are not modelled (a backslash is
kept literally). `tok = some cs` means a token is being built (so a quoted
empty string still yields an empty token). -/
def shlexRun : List Char → SMode → Option (List Char) → List String →
    Except String (List String)
  | [], .normal, none, acc => .ok acc
  | [], .normal, some t, acc => .ok (acc ++ [String.mk t])
  | [], .inQuote _, _, _ => .error "No closing quotation"
  | c :: cs, .normal, tok, acc =>
    if c.isWhitespace then
      match tok with
      | none => shlexRun cs .normal none acc
      | some t => shlexRun cs .normal none (acc ++ [String.mk t])
    else if c = Char.ofNat 39 ∨ c = Char.ofNat 34 then
      shlexRun cs (.inQuote c) (some (tok.getD [])) acc
    else
      shlexRun cs .normal (some (tok.getD [] ++ [c])) acc
  | c :: cs, .inQuote q, tok, acc =>
    if c = q then shlexRun cs .normal (some (tok.getD [])) acc
    else shlexRun cs (.inQuote q) (some (tok.getD [] ++ [c])) acc

/-- `shlex.split(s)`, as an `Except` to model the `ValueError` it can raise. -/
def shlexSplit (s : String) : Except String (List String) :=
  shlexRun s.data .normal none []

/-- Decidable equality of `Except` results (not provided by core). -/
instance {ε α : Type} [DecidableEq ε] [DecidableEq α] :
    DecidableEq (Except ε α) := fun a b =>
  match a, b with
  | .ok x, .ok y =>
    if h : x = y then isTrue (by rw [h])
    else isFalse (by intro hc; cases hc; exact h rfl)
  | .error e, .error f =>
    if h : e = f then isTrue (by rw [h])
    else isFalse (by intro hc; cases hc; exact h rfl)
  | .ok _, .error _ => isFalse (by intro hc; cases hc)
  | .error _, .ok _ => isFalse (by intro hc; cases hc)

/-- `ParsedCommand` (`command_executor.py`). -/
structure ParsedCommand : Type where
  name : String
  args : List Value
  kwargs : List (String × Value)
  rawInput : String
  deriving DecidableEq

/-- Python `s.split('=', 1)` for a string known to contain `'='`. -/
def splitFirstEq (s : String) : String × String :=
  let cs := s.data
  let key := cs.takeWhile (fun c => c ≠ '=')
  (String.mk key, String.mk (cs.drop (key.length + 1)))

/-- The argument/flag classification loop of
`CommandExecutor._parse_opencode_command` (the `while i < len(parts)` loop),
threading the positional-args list and the kwargs dict.  The `[part]` arm is
the source's `i + 1 < len(parts)` test failing: no following token exists. -/
def parseLoop : List String → List Value → List (String × Value) →
    List Value × List (String × Value)
  | [], args, kwargs => (args, kwargs)
  | [part], args, kwargs =>
    if pyStartsWith part "--" then
      let flagPart := pyDrop part 2
      if pyContainsChar flagPart '=' then
        let (key, value) := splitFirstEq flagPart
        (args, ainsert kwargs key (parseValue value))
      else (args, ainsert kwargs flagPart (.bool true))
    else if pyStartsWith part "-" then
      (args, ainsert kwargs (pyDrop part 1) (.bool true))
    else (args ++ [parseValue part], kwargs)
  | part :: next :: rest, args, kwargs =>
    if pyStartsWith part "--" then
      let flagPart := pyDrop part 2
      if pyContainsChar flagPart '=' then
        let (key, value) := splitFirstEq flagPart
        parseLoop (next :: rest) args (ainsert kwargs key (parseValue value))
      else
        -- "Next part should be the value": consumed whenever it exists.
        parseLoop rest args (ainsert kwargs flagPart (parseValue next))
    else if pyStartsWith part "-" then
      let flagName := pyDrop part 1
      if !pyStartsWith next "-" then
        parseLoop rest args (ainsert kwargs flagName (parseValue next))
      else
        parseLoop (next :: rest) args (ainsert kwargs flagName (.bool true))
    else
      parseLoop (next :: rest) (args ++ [parseValue part]) kwargs

/-- `CommandExecutor._parse_opencode_command` on the (already stripped)
command string. -/
def parseOpencodeCommand (commandString : String) :
    Except String (Option ParsedCommand) := do
  let cmdPart := pyDrop commandString 1
  let parts ← shlexSplit cmdPart
  match parts with
  | [] => return none
  | commandName :: argParts =>
    let (args, kwargs) := parseLoop argParts [] []
    return some ⟨commandName, args, kwargs, commandString⟩

/-- `CommandExecutor._parse_simple_command`. -/
def parseSimpleCommand (commandString : String) :
    Except String (Option ParsedCommand) := do
  let parts ← shlexSplit commandString
  match parts with
  | [] => return none
  | name :: rest =>
    return some ⟨name, rest.map parseValue, [], commandString⟩

/-- `CommandExecutor.parse_command_string`; the `.error` branch models the
`ValueError` `shlex` can raise (caught by `execute_string`). -/
def parseCommandString (commandString : String) :
    Except String (Option ParsedCommand) :=
  if commandString = "" ∨ pyStrip commandString = "" then .ok none
  else
    let stripped := pyStrip commandString
    if pyStartsWith stripped "/" then parseOpencodeCommand stripped
    else parseSimpleCommand stripped

/-! ### The command registry (`command_registry.py`)

Python dataclass `==` is structural, so the metadata and entry records derive
`DecidableEq` (function `__eq__` identity is approximated by the structural
equality of the small `Handler` datatype below; no claim depends on
distinguishing equal-behaviour handler objects).  `created_at`/`updated_at`
timestamps are omitted: none of the embedded operations reads them.  Object
identity and in-place mutation (`command.enabled = True` seen through every
alias) are modelled by a `store` of entries addressed by `Nat` references;
the name→entry dict of the source becomes the name→reference dict
`commands`. -/

/-- A parameter spec, `{type: ..., required: ...}`; `ty` is the dict's
`'type'` key (default `"any"`), `required` its `'required'` key (default
`False`), as read by `validate_command_arguments`. -/
structure ParamInfo : Type where
  ty : String := "any"
  required : Bool := false
  deriving DecidableEq

/-- `CommandMetadata` (timestamps omitted, see section comment). -/
structure CommandMetadata : Type where
  name : String
  description : String
  category : String
  aliases : List String := []
  parameters : List (String × ParamInfo) := []
  examples : List String := []
  version : String := "1.0.0"
  author : String := "spec-kit"
  tags : List String := []
  requiresProject : Bool := false
  hidden : Bool := false
  deriving DecidableEq

/-- A handler is a callable that either returns a value or raises an
exception carrying a message; registered handlers in this development are
drawn from this universe. -/
inductive Handler : Type where
  | ok (v : Value)
  | throws (msg : String)
  deriving DecidableEq

/-- Calling a handler: `handler(*args, **kwargs)` returning or raising. -/
def runHandler (h : Handler) (_args : List Value)
    (_kwargs : List (String × Value)) : Except String Value :=
  match h with
  | .ok v => .ok v
  | .throws msg => .error msg

/-- `RegisteredCommand`. -/
structure RegisteredCommand : Type where
  metadata : CommandMetadata
  handler : Handler
  modulePath : String
  enabled : Bool := true
  deriving DecidableEq

/-- Placeholder entry for out-of-range dereferences; never reached from
states built by the registry API. -/
def defaultRC : RegisteredCommand :=
  { metadata := { name := "", description := "", category := "" }
    handler := .ok .null
    modulePath := "" }

/-- `CommandRegistry` state: the entry store (Python heap) plus the
name/alias→entry dict and the category index. -/
structure CommandRegistry : Type where
  store : List RegisteredCommand := []
  commands : List (String × Nat) := []
  categories : List (String × List String) := []
  deriving DecidableEq

def emptyRegistry : CommandRegistry := {}

/-- Dereference an entry (total via `defaultRC`, see above). -/
def deref (reg : CommandRegistry) (r : Nat) : RegisteredCommand :=
  reg.store.getD r defaultRC

/-- `CommandRegistry.get_command`: lookup by primary name or alias. -/
def getCommand (reg : CommandRegistry) (name : String) :
    Option RegisteredCommand :=
  (alookup reg.commands name).map (deref reg)

/-- The reference a name resolves to (object identity of `get_command`'s
result). -/
def getRef (reg : CommandRegistry) (name : String) : Option Nat :=
  alookup reg.commands name

/-- `CommandRegistry.register_command`.  (`module_path` comes from the
handler's `__module__`, which the handler universe does not carry; it is
constant, which no claim observes.) -/
def registerCommand (reg : CommandRegistry) (name : String) (handler : Handler)
    (description : String) (category : String := "general")
    (aliases : List String := []) (parameters : List (String × ParamInfo) := [])
    (examples : List String := []) (tags : List String := [])
    (requiresProject : Bool := false) (hidden : Bool := false)
    (version : String := "1.0.0") : CommandRegistry :=
  let metadata : CommandMetadata :=
    { name, description, category, aliases, parameters, examples, version
      tags, requiresProject, hidden }
  let rc : RegisteredCommand :=
    { metadata, handler, modulePath := "unknown", enabled := true }
  let ref := reg.store.length
  let store := reg.store ++ [rc]
  let cmds := ainsert reg.commands name ref
  let cats0 :=
    if (alookup reg.categories category).isSome then reg.categories
    else reg.categories ++ [(category, [])]
  let curr := (alookup cats0 category).getD []
  let cats :=
    if name ∈ curr then cats0 else ainsert cats0 category (curr ++ [name])
  -- "if alias not in self.commands: self.commands[alias] = registered_command"
  let cmds2 := aliases.foldl
    (fun c al =>
      if (alookup c al).isSome then c else ainsert c al ref) cmds
  { store, commands := cmds2, categories := cats }

/-- `CommandRegistry.unregister_command`, returning the new state and the
boolean result. -/
def unregisterCommand (reg : CommandRegistry) (name : String) :
    CommandRegistry × Bool :=
  match alookup reg.commands name with
  | none => (reg, false)
  | some r =>
    let command := deref reg r
    let cat := command.metadata.category
    let cats :=
      match alookup reg.categories cat with
      | some l =>
        if name ∈ l then ainsert reg.categories cat (l.erase name)
        else reg.categories
      | none => reg.categories
    let toRemove := name :: command.metadata.aliases
    let cmds := toRemove.foldl
      (fun c al =>
        if (alookup c al).isSome then aremove c al else c) reg.commands
    ({ reg with commands := cmds, categories := cats }, true)

/-- `CommandRegistry.enable_command`: mutates the shared entry object. -/
def enableCommand (reg : CommandRegistry) (name : String) :
    CommandRegistry × Bool :=
  match alookup reg.commands name with
  | none => (reg, false)
  | some r =>
    ({ reg with store := reg.store.set r { deref reg r with enabled := true } },
     true)

/-- `CommandRegistry.disable_command`. -/
def disableCommand (reg : CommandRegistry) (name : String) :
    CommandRegistry × Bool :=
  match alookup reg.commands name with
  | none => (reg, false)
  | some r =>
    ({ reg with store := reg.store.set r { deref reg r with enabled := false } },
     true)

/-- A sequence of enable (`true`) / disable (`false`) toggles on `name`. -/
def applyToggles (reg : CommandRegistry) (name : String) :
    List Bool → CommandRegistry
  | [] => reg
  | t :: ts =>
    let reg' := if t then (enableCommand reg name).1
                else (disableCommand reg name).1
    applyToggles reg' name ts

/-- `CommandRegistry.list_commands`: iterate the dict, skipping alias keys
(`command.metadata.name != name`), then filter by category, hidden, and
enabled flags. -/
def listCommands (reg : CommandRegistry) (category : Option String := none)
    (includeHidden : Bool := false) (includeDisabled : Bool := false) :
    List RegisteredCommand :=
  (reg.commands.filterMap (fun kv =>
    let command := deref reg kv.2
    if command.metadata.name ≠ kv.1 then none
    else if category.isSome ∧ some command.metadata.category ≠ category then
      none
    else if command.metadata.hidden ∧ ¬includeHidden then none
    else if ¬command.enabled ∧ ¬includeDisabled then none
    else some command))

/-- `CommandRegistry.get_stats` result record. -/
structure Stats : Type where
  totalCommands : Nat
  enabledCommands : Nat
  disabledCommands : Nat
  categories : Nat
  commandsPerCategory : List (String × Nat)
  deriving DecidableEq

/-- The per-entry predicate of `get_stats`:
`c.metadata.name == list(keys)[list(values).index(c)]` — the alias-filter the
source attempts, using Python `list.index` (first occurrence under dataclass
equality). -/
def statsKeep (keys : List String) (vals : List RegisteredCommand)
    (c : RegisteredCommand) : Bool :=
  c.metadata.name = keys.getD (pyIndex vals c) ""

/-- `CommandRegistry.get_stats`. -/
def getStats (reg : CommandRegistry) : Stats :=
  let keys := reg.commands.map Prod.fst
  let vals := reg.commands.map (fun kv => deref reg kv.2)
  let total := (vals.filter (fun c => statsKeep keys vals c)).length
  let enabled :=
    (vals.filter (fun c => c.enabled && statsKeep keys vals c)).length
  { totalCommands := total
    enabledCommands := enabled
    disabledCommands := total - enabled
    categories := reg.categories.length
    commandsPerCategory := reg.categories.map (fun kv => (kv.1, kv.2.length)) }

/-- Truthiness of `context.get('project_path')`. -/
def ctxProjTruthy (context : List (String × Value)) : Bool :=
  match alookup context "project_path" with
  | some v => pyTruthy v
  | none => false

/-- `CommandRegistry.execute_command`: raising is modelled by `.error` with
`str(e)`. -/
def executeCommand (reg : CommandRegistry) (name : String)
    (args : List Value) (kwargs : List (String × Value))
    (context : List (String × Value)) : Except String Value :=
  match getCommand reg name with
  | none => .error ("Command " ++ sq ++ name ++ sq ++ " not found")
  | some command =>
    if ¬command.enabled then
      .error ("Command " ++ sq ++ name ++ sq ++ " is disabled")
    else if command.metadata.requiresProject ∧ ¬ctxProjTruthy context then
      .error ("Command " ++ sq ++ name ++ sq ++ " requires a project context")
    else
      match runHandler command.handler args kwargs with
      | .ok v => .ok v
      | .error e =>
        .error ("Command " ++ sq ++ name ++ sq ++ " execution failed: " ++ e)

/-! ### Argument validation and the executor (`command_executor.py`) -/

/-- The Python classes `type_map` maps a declared type name to; `isinstance`
against them (note `bool` is a subclass of `int` in Python, so a boolean
value satisfies a declared `int`). `list`/`dict` match none of the scalar
values the parser produces. -/
inductive PyType : Type where
  | pstr | pint | pfloat | pbool | plist | pdict
  deriving DecidableEq

/-- `type_map` of `CommandExecutor._validate_type`. -/
def typeMap : List (String × PyType) :=
  [("str", .pstr), ("int", .pint), ("float", .pfloat), ("bool", .pbool),
   ("list", .plist), ("dict", .pdict)]

/-- `isinstance(value, cls)` for parser-produced scalars. -/
def pyIsinstance (v : Value) (ty : PyType) : Bool :=
  match ty, v with
  | .pstr, .str _ => true
  | .pint, .int _ => true
  | .pint, .bool _ => true
  | .pfloat, .float _ => true
  | .pbool, .bool _ => true
  | _, _ => false

/-- `CommandExecutor._validate_type`. -/
def validateType (value : Value) (expectedType : String) : Bool :=
  if expectedType = "any" then true
  else
    match alookup typeMap expectedType with
    | some ty => pyIsinstance value ty
    | none => true  -- "Unknown type, assume valid"

/-- One step of the required-parameter loop of
`validate_command_arguments`. -/
def requiredError (parsed : ParsedCommand) (p : String × ParamInfo) :
    Option String :=
  if p.2.required ∧ alookup parsed.kwargs p.1 = none ∧ parsed.args.length = 0
  then some ("Required parameter " ++ sq ++ p.1 ++ sq ++ " is missing")
  else none

/-- One step of the type-check loop of `validate_command_arguments`. -/
def kwargError (parameters : List (String × ParamInfo))
    (kv : String × Value) : Option String :=
  match alookup parameters kv.1 with
  | some paramInfo =>
    if validateType kv.2 paramInfo.ty then none
    else some ("Parameter " ++ sq ++ kv.1 ++ sq ++ " should be of type " ++
               paramInfo.ty)
  | none => none

/-- The accumulated `errors` list of `validate_command_arguments`: every
missing required parameter, then every type mismatch. -/
def validationErrors (parsed : ParsedCommand) (command : RegisteredCommand) :
    List String :=
  command.metadata.parameters.filterMap (requiredError parsed) ++
    parsed.kwargs.filterMap (kwargError command.metadata.parameters)

/-- The `{valid, error}` dict `validate_command_arguments` returns. -/
structure ValidationResult : Type where
  valid : Bool
  error : Option String := none
  deriving DecidableEq

/-- `CommandExecutor.validate_command_arguments`. -/
def validateCommandArguments (parsed : ParsedCommand)
    (command : RegisteredCommand) : ValidationResult :=
  if command.metadata.parameters = [] then { valid := true }
  else
    let errors := validationErrors parsed command
    if errors ≠ [] then { valid := false, error := some (joinSemi errors) }
    else { valid := true }

/-- `CommandResult` (`execution_time` not modelled, see header). -/
structure CommandResult : Type where
  success : Bool
  output : Option Value := none
  error : Option String := none
  commandName : String := ""
  context : Option (List (String × Value)) := none
  deriving DecidableEq

/-- The project-context test of `execute_parsed_command`:
`not context or not context.get('project_path')` (an empty dict is falsy). -/
def ctxHasProject (context : Option (List (String × Value))) : Bool :=
  match context with
  | none => false
  | some d => d ≠ [] && ctxProjTruthy d

/-- `CommandExecutor.execute_parsed_command`; its `try` block catches the
exception `registry.execute_command` can raise. -/
def executeParsedCommand (reg : CommandRegistry) (parsed : ParsedCommand)
    (context : Option (List (String × Value))) : CommandResult :=
  match getCommand reg parsed.name with
  | none =>
    { success := false
      error := some ("Command " ++ sq ++ parsed.name ++ sq ++ " not found")
      commandName := parsed.name }
  | some command =>
    if ¬command.enabled then
      { success := false
        error := some ("Command " ++ sq ++ parsed.name ++ sq ++ " is disabled")
        commandName := parsed.name }
    else if command.metadata.requiresProject ∧ ¬ctxHasProject context then
      { success := false
        error := some ("Command " ++ sq ++ parsed.name ++ sq ++
                       " requires a project context")
        commandName := parsed.name }
    else
      let validationResult := validateCommandArguments parsed command
      if ¬validationResult.valid then
        { success := false
          error := validationResult.error
          commandName := parsed.name }
      else
        match executeCommand reg parsed.name parsed.args parsed.kwargs
            ((context).getD []) with
        | .ok result =>
          { success := true, output := some result
            commandName := parsed.name }
        | .error e =>
          { success := false
            error := some ("Command execution failed: " ++ e)
            commandName := parsed.name }

/-- `CommandExecutor.execute_string`: total by construction — the outer
`try/except` maps a raised exception (here: only the tokenizer's
`ValueError`) to a failure result. -/
def executeString (reg : CommandRegistry) (commandString : String)
    (context : Option (List (String × Value))) : CommandResult :=
  match parseCommandString commandString with
  | .error e => { success := false, error := some e, context }
  | .ok none => { success := false, error := some "Failed to parse command" }
  | .ok (some parsed) =>
    { executeParsedCommand reg parsed context with context }

/-! ### Agent dispatch (`agent_registry.py`) -/

/-- A live agent instance: `execute(input_data)` returns or raises. -/
structure Agent : Type where
  execute : Value → Except String Value

/-- The `_agents` map of `AgentRegistry` (the only state `execute_agent`
reads). -/
structure AgentRegistryS : Type where
  agents : List (String × Agent) := []

/-- The result envelope of `execute_agent`, as a record of the dict's
possible keys; a `none` field models the key being absent. -/
structure Envelope : Type where
  success : Bool
  result : Option Value := none
  error : Option String := none
  agent : Option String := none
  timestamp : Option String := none
  deriving DecidableEq

/-- `AgentRegistry.execute_agent`; `now` is the value `datetime.now()
.isoformat()` would produce, threaded in as an input. -/
def executeAgent (reg : AgentRegistryS) (agentName : String)
    (inputData : Value) (now : String) : Envelope :=
  match alookup reg.agents agentName with
  | none =>
    { success := false
      error := some ("Agent " ++ dq ++ agentName ++ dq ++ " not found") }
  | some agent =>
    match agent.execute inputData with
    | .ok result =>
      { success := true, result := some result, agent := some agentName
        timestamp := some now }
    | .error e =>
      { success := false, error := some e, agent := some agentName
        timestamp := some now }

/-! ### Concrete states used by witnesses and counterexamples -/

/-- A registry holding one command `boom` whose handler raises `kaboom`. -/
def boomRegistry : CommandRegistry :=
  registerCommand emptyRegistry "boom" (.throws "kaboom") "a demo command"

/-- The entry `boomRegistry` stores for `boom`. -/
def boomCmd : RegisteredCommand :=
  { metadata := { name := "boom", description := "a demo command",
                  category := "general" }
    handler := .throws "kaboom"
    modulePath := "unknown" }

/-- Register `n` with alias `a`, then register `n` again with no aliases. -/
def staleAliasRegistry : CommandRegistry :=
  registerCommand
    (registerCommand emptyRegistry "n" (.ok .null) "first registration"
      "general" ["a"])
    "n" (.ok (.str "v2")) "second registration" "general" []

/-- A registry holding one command `c` with one alias `a`. -/
def aliasCountRegistry : CommandRegistry :=
  registerCommand emptyRegistry "c" (.ok .null) "a command" "general" ["a"]

/-- Register `x`, then register `y` whose alias list names the existing
primary `x`. -/
def shadowRegistry : CommandRegistry :=
  registerCommand
    (registerCommand emptyRegistry "x" (.ok .null) "existing command")
    "y" (.ok (.str "w")) "new command" "general" ["x"]

/-- A registry holding one command `n` with aliases `a1` and `a2`. -/
def unregRegistry : CommandRegistry :=
  registerCommand emptyRegistry "n" (.ok .null) "cmd" "general" ["a1", "a2"]

/-- The entry `unregRegistry` stores for `n`. -/
def unregEntry : RegisteredCommand :=
  { metadata := { name := "n", description := "cmd", category := "general",
                  aliases := ["a1", "a2"] }
    handler := .ok .null
    modulePath := "unknown" }

/-- A command whose schema declares two required parameters. -/
def twoRequiredCmd : RegisteredCommand :=
  { metadata := { name := "e", description := "", category := "general",
                  parameters := [("p1", { ty := "str", required := true }),
                                 ("p2", { ty := "int", required := true })] }
    handler := .ok .null
    modulePath := "unknown" }

/-- An invocation of `e` supplying neither keyword nor positional args. -/
def noneSuppliedParsed : ParsedCommand := ⟨"e", [], [], "/e"⟩

/-- The parse result of `/x --a --b=1`. -/
def dashDashParsed : ParsedCommand :=
  ⟨"x", [], [("a", .str "--b=1")], "/x --a --b=1"⟩

/-- The parse result of `/x --flag=true --n=3 --f=2.5 --s=none`. -/
def coercionParsed : ParsedCommand :=
  ⟨"x", [],
   [("flag", .bool true), ("n", .int 3), ("f", .float ⟨25, -1⟩),
    ("s", .null)],
   "/x --flag=true --n=3 --f=2.5 --s=none"⟩

/-- An agent whose `execute` raises. -/
def throwingAgent : Agent := ⟨fun _ => .error "agent boom"⟩

/-- An agent registry holding only `throwingAgent` under `a`. -/
def throwingAgentRegistry : AgentRegistryS := ⟨[("a", throwingAgent)]⟩

/-! ### Helper lemmas on the dict operations -/

theorem alookup_ainsert_self {α : Type} (d : List (String × α)) (k : String)
    (v : α) : alookup (ainsert d k v) k = some v := by
  induction d with
  | nil => simp [ainsert, alookup]
  | cons p rest ih =>
    by_cases h : p.1 = k
    · simp [ainsert, alookup, h]
    · simp [ainsert, alookup, h, ih]

theorem alookup_ainsert_ne {α : Type} (d : List (String × α)) (k k' : String)
    (v : α) (h : k' ≠ k) : alookup (ainsert d k v) k' = alookup d k' := by
  induction d with
  | nil => simp [ainsert, alookup, Ne.symm h]
  | cons p rest ih =>
    by_cases hp : p.1 = k
    · subst hp
      simp [ainsert, alookup, Ne.symm h]
    · by_cases hp' : p.1 = k'
      · simp [ainsert, alookup, hp, hp', h]
      · simp [ainsert, alookup, hp, hp', ih]

theorem alookup_aremove_ne {α : Type} (d : List (String × α)) (k k' : String)
    (h : k' ≠ k) : alookup (aremove d k) k' = alookup d k' := by
  induction d with
  | nil => simp [aremove]
  | cons p rest ih =>
    by_cases hp : p.1 = k
    · subst hp
      simp [aremove, alookup, Ne.symm h]
    · by_cases hp' : p.1 = k'
      · simp [aremove, alookup, hp, hp', h]
      · simp [aremove, alookup, hp, hp', ih]

theorem alookup_aremove_none {α : Type} (d : List (String × α)) (j k : String)
    (h : alookup d k = none) : alookup (aremove d j) k = none := by
  induction d with
  | nil => simp [aremove, alookup]
  | cons p rest ih =>
    simp only [alookup] at h
    by_cases hk : p.1 = k
    · simp [hk] at h
    · simp only [hk, if_false] at h
      by_cases hp : p.1 = j
      · simpa [aremove, hp] using h
      · simp [aremove, hp, alookup, hk, ih h]

theorem alookup_eq_none_of_not_mem {α : Type} (d : List (String × α))
    (k : String) (h : k ∉ d.map Prod.fst) : alookup d k = none := by
  induction d with
  | nil => simp [alookup]
  | cons p rest ih =>
    simp only [List.map_cons, List.mem_cons, not_or] at h
    simp only [alookup]
    rw [if_neg (fun hc => h.1 hc.symm)]
    exact ih h.2

theorem alookup_aremove_self {α : Type} (d : List (String × α)) (k : String)
    (h : (d.map Prod.fst).Nodup) : alookup (aremove d k) k = none := by
  induction d with
  | nil => simp [aremove, alookup]
  | cons p rest ih =>
    simp only [List.map_cons, List.nodup_cons] at h
    by_cases hp : p.1 = k
    · subst hp
      simpa [aremove] using alookup_eq_none_of_not_mem rest p.1 h.1
    · simp [aremove, hp, alookup, ih h.2]

theorem keys_aremove_sublist {α : Type} (d : List (String × α)) (k : String) :
    ((aremove d k).map Prod.fst).Sublist (d.map Prod.fst) := by
  induction d with
  | nil => simp [aremove]
  | cons p rest ih =>
    by_cases hp : p.1 = k
    · simp only [aremove, hp, if_true, List.map_cons]
      exact (List.sublist_cons_self _ _)
    · simp only [aremove, hp, if_false, List.map_cons]
      exact ih.cons₂ p.1

theorem keysNodup_aremove {α : Type} (d : List (String × α)) (k : String)
    (h : (d.map Prod.fst).Nodup) : ((aremove d k).map Prod.fst).Nodup :=
  (keys_aremove_sublist d k).nodup h

/-- The alias-binding fold of `register_command` keeps every existing
binding. -/
theorem aliasFold_preserves {α : Type} (as : List String)
    (d : List (String × α)) (r : α) (k : String) (v : α)
    (h : alookup d k = some v) :
    alookup (as.foldl (fun c al =>
      if (alookup c al).isSome then c else ainsert c al r) d) k = some v := by
  induction as generalizing d with
  | nil => simpa using h
  | cons al rest ih =>
    simp only [List.foldl_cons]
    by_cases hpres : (alookup d al).isSome
    · rw [if_pos hpres]
      exact ih d h
    · rw [if_neg hpres]
      refine ih _ ?_
      by_cases hk : k = al
      · subst hk
        simp [h] at hpres
      · rw [alookup_ainsert_ne d al k r hk]
        exact h

/-- The alias-binding fold of `register_command` binds every listed alias
that was unbound when the fold started. -/
theorem aliasFold_binds {α : Type} (as : List String)
    (d : List (String × α)) (r : α) (k : String)
    (hk : alookup d k = none) (hmem : k ∈ as) :
    alookup (as.foldl (fun c al =>
      if (alookup c al).isSome then c else ainsert c al r) d) k = some r := by
  induction as generalizing d with
  | nil => cases hmem
  | cons al rest ih =>
    simp only [List.foldl_cons]
    by_cases hka : k = al
    · subst hka
      rw [if_neg (by simp [hk])]
      exact aliasFold_preserves rest _ r k r (alookup_ainsert_self d k r)
    · have hmem' : k ∈ rest := by
        rcases List.mem_cons.mp hmem with h | h
        · exact absurd h hka
        · exact h
      by_cases hpres : (alookup d al).isSome
      · rw [if_pos hpres]
        exact ih d hk hmem'
      · rw [if_neg hpres]
        refine ih _ ?_ hmem'
        rw [alookup_ainsert_ne d al k r hka]
        exact hk

/-- A key absent before the alias-removal fold of `unregister_command` stays
absent. -/
theorem removeFold_preserves_none {α : Type} (ks : List String)
    (d : List (String × α)) (k : String) (h : alookup d k = none) :
    alookup (ks.foldl (fun c al =>
      if (alookup c al).isSome then aremove c al else c) d) k = none := by
  induction ks generalizing d with
  | nil => simpa using h
  | cons al rest ih =>
    simp only [List.foldl_cons]
    by_cases hpres : (alookup d al).isSome
    · rw [if_pos hpres]
      exact ih _ (alookup_aremove_none d al k h)
    · rw [if_neg hpres]
      exact ih d h

/-- A key not listed for removal is untouched by the alias-removal fold. -/
theorem removeFold_preserves_other {α : Type} (ks : List String)
    (d : List (String × α)) (k : String) (hmem : k ∉ ks) :
    alookup (ks.foldl (fun c al =>
      if (alookup c al).isSome then aremove c al else c) d) k = alookup d k := by
  induction ks generalizing d with
  | nil => simp
  | cons al rest ih =>
    simp only [List.mem_cons, not_or] at hmem
    simp only [List.foldl_cons]
    by_cases hpres : (alookup d al).isSome
    · rw [if_pos hpres]
      rw [ih _ hmem.2]
      exact alookup_aremove_ne d al k hmem.1
    · rw [if_neg hpres]
      exact ih d hmem.2

/-- The alias-removal fold of `unregister_command` removes every listed key
(unique-key states). -/
theorem removeFold_removes {α : Type} (ks : List String)
    (d : List (String × α)) (hnodup : (d.map Prod.fst).Nodup) (k : String)
    (hmem : k ∈ ks) :
    alookup (ks.foldl (fun c al =>
      if (alookup c al).isSome then aremove c al else c) d) k = none := by
  induction ks generalizing d with
  | nil => cases hmem
  | cons al rest ih =>
    simp only [List.foldl_cons]
    by_cases hka : k = al
    · subst hka
      by_cases hpres : (alookup d k).isSome
      · rw [if_pos hpres]
        exact removeFold_preserves_none rest _ k (alookup_aremove_self d k hnodup)
      · rw [if_neg hpres]
        exact removeFold_preserves_none rest d k
          (Option.not_isSome_iff_eq_none.mp hpres)
    · have hmem' : k ∈ rest := by
        rcases List.mem_cons.mp hmem with h | h
        · exact absurd h hka
        · exact h
      by_cases hpres : (alookup d al).isSome
      · rw [if_pos hpres]
        exact ih _ (keysNodup_aremove d al hnodup) hmem'
      · rw [if_neg hpres]
        exact ih d hnodup hmem'

/-- `enable_command`/`disable_command` never change the name→entry dict. -/
theorem toggle_commands_eq (reg : CommandRegistry) (name : String) (t : Bool) :
    (if t then (enableCommand reg name).1
     else (disableCommand reg name).1).commands = reg.commands := by
  cases t <;> simp [enableCommand, disableCommand] <;>
    cases alookup reg.commands name <;> simp

/-- A toggle sequence never changes the name→entry dict. -/
theorem applyToggles_commands_eq (reg : CommandRegistry) (name : String)
    (ts : List Bool) : (applyToggles reg name ts).commands = reg.commands := by
  induction ts generalizing reg with
  | nil => rfl
  | cons t rest ih =>
    simp only [applyToggles]
    rw [ih]
    exact toggle_commands_eq reg name t

/-! ### Claim theorems -/

/-- Claim C2, evaluated at the failing input: after registering `n` with
alias set `{a}` and re-registering `n` with an empty alias set, the stale
alias `a` is *not* dropped — it still resolves (to the old entry, reference
0, distinct from the new entry under `n`, reference 1), contradicting the
claimed wholesale replacement. -/
theorem c2_register_leaves_stale_alias :
    getRef staleAliasRegistry "a" = some 0 ∧
    getRef staleAliasRegistry "n" = some 1 ∧
    (getCommand staleAliasRegistry "a").isSome = true ∧
    getCommand staleAliasRegistry "a" ≠ getCommand staleAliasRegistry "n" := by
  decide

/-- Claim C3, evaluated at the failing input: in a registry holding exactly
one primary command `c` with one alias `a`, `get_stats` reports
`total_commands = 2` and `enabled_commands = 2` (the alias is double-counted:
its per-entry filter compares against the key at the *first* index of the
entry in the values list, which is the primary key for every duplicate), even
though the primary-only listing has exactly one entry. -/
theorem c3_stats_double_counts_alias :
    (getStats aliasCountRegistry).totalCommands = 2 ∧
    (getStats aliasCountRegistry).enabledCommands = 2 ∧
    (listCommands aliasCountRegistry none true true).length = 1 := by
  decide

/-- Claim C4 counterexample: register `x`, then register `y` with alias list
`["x"]`.  Because `register_command` only binds an alias when the key is
absent, `x` keeps resolving to the pre-existing entry: `get(y) ≠ get(x)` even
though `x` is in `y`'s declared alias set. -/
theorem c4_alias_shadowing_counterexample :
    ((getCommand shadowRegistry "y").getD defaultRC).metadata.aliases =
      ["x"] ∧
    (getCommand shadowRegistry "x").isSome = true ∧
    getCommand shadowRegistry "x" ≠ getCommand shadowRegistry "y" := by
  decide

/-- Claim C6 counterexample: in `/x --a --b=1` the long flag `--a` consumes
the following token even though that token looks like a flag, so the parse
yields `a = "--b=1"` (a string) and no key `b` at all — not `a = true,
b = 1`. -/
theorem c6_flag_consumes_flaglike_token :
    parseCommandString "/x --a --b=1" = .ok (some dashDashParsed) ∧
    alookup dashDashParsed.kwargs "a" = some (.str "--b=1") ∧
    alookup dashDashParsed.kwargs "b" = none := by
  refine ⟨by decide, by decide, by decide⟩

/-- Claim C8 counterexample: when the named agent is not found,
`execute_agent` returns only `{success: False, error: ...}` — the envelope
carries neither the agent name nor a timestamp. -/
theorem c8_not_found_envelope_lacks_agent_and_timestamp :
    executeAgent ⟨[]⟩ "x" .null "2024-01-01T00:00:00" =
      { success := false
        error := some ("Agent " ++ dq ++ "x" ++ dq ++ " not found") } ∧
    (executeAgent ⟨[]⟩ "x" .null "2024-01-01T00:00:00").agent = none ∧
    (executeAgent ⟨[]⟩ "x" .null "2024-01-01T00:00:00").timestamp = none := by
  refine ⟨by decide, by decide, by decide⟩

/-- Claim C10: a declared parameter type outside
`{str, int, float, bool, list, dict, any}` — e.g. the spec enum's own
`string` — is accepted unconditionally by `_validate_type` (unknown types are
assumed valid), so the kwargs type-check loop never emits an error for a
parameter declared with such a type. -/
theorem c10_unknown_declared_type_never_enforced (v : Value) (t : String)
    (h : t ∉ ["str", "int", "float", "bool", "list", "dict", "any"]) :
    validateType v t = true ∧
    ∀ (parameters : List (String × ParamInfo)) (k : String)
      (pinfo : ParamInfo), alookup parameters k = some pinfo → pinfo.ty = t →
      kwargError parameters (k, v) = none := by
  simp only [List.mem_cons, List.not_mem_nil, or_false, not_or] at h
  obtain ⟨h1, h2, h3, h4, h5, h6, h7⟩ := h
  have hvt : validateType v t = true := by
    simp [validateType, typeMap, alookup, h7,
      Ne.symm h1, Ne.symm h2, Ne.symm h3, Ne.symm h4, Ne.symm h5, Ne.symm h6]
  refine ⟨hvt, ?_⟩
  intro parameters k pinfo hpk hty
  simp [kwargError, hpk, hty, hvt]

/-- Witness for C10 at the declared type `string` of the spec's parameter
enum. -/
theorem c10_witness :
    validateType (.int 5) "string" = true ∧
    kwargError [("msg", { ty := "string", required := true })]
      ("msg", .int 5) = none := by
  have h := c10_unknown_declared_type_never_enforced (.int 5) "string"
    (by decide)
  exact ⟨h.1, h.2 [("msg", { ty := "string", required := true })] "msg"
    { ty := "string", required := true } (by decide) rfl⟩

/-- Claim C7: scalar coercion maps case-insensitive `true`/`false` to
booleans; a dot-free token accepted by `int` to an integer; a dotted token
accepted by `float` to a float; then case-insensitive `none`/`null` to null;
any other token stays a string — and concretely
`/x --flag=true --n=3 --f=2.5 --s=none` parses to
`{flag: true, n: 3, f: 5/2, s: null}`. -/
theorem c7_parse_value_coercion :
    (∀ s : String, pyLower s = "true" → parseValue s = .bool true) ∧
    (∀ s : String, pyLower s = "false" → parseValue s = .bool false) ∧
    (∀ (s : String) (n : Int), pyLower s ≠ "true" → pyLower s ≠ "false" →
      pyContainsChar s '.' = false → pyInt s = some n →
      parseValue s = .int n) ∧
    (∀ (s : String) (f : PyFloat), pyLower s ≠ "true" → pyLower s ≠ "false" →
      pyContainsChar s '.' = true → pyFloat s = some f →
      parseValue s = .float f) ∧
    (∀ s : String, pyLower s ≠ "true" → pyLower s ≠ "false" →
      (if pyContainsChar s '.' then pyFloat s = none else pyInt s = none) →
      (pyLower s = "none" ∨ pyLower s = "null") → parseValue s = .null) ∧
    (∀ s : String, pyLower s ≠ "true" → pyLower s ≠ "false" →
      (if pyContainsChar s '.' then pyFloat s = none else pyInt s = none) →
      pyLower s ≠ "none" → pyLower s ≠ "null" → parseValue s = .str s) ∧
    parseCommandString "/x --flag=true --n=3 --f=2.5 --s=none" =
      .ok (some coercionParsed) := by
  refine ⟨?_, ?_, ?_, ?_, ?_, ?_, by decide⟩
  · intro s h
    simp [parseValue, h]
  · intro s h
    simp [parseValue, h]
  · intro s n h1 h2 hc hint
    simp [parseValue, h1, h2, hc, hint]
  · intro s q h1 h2 hc hfl
    simp [parseValue, h1, h2, hc, hfl]
  · intro s h1 h2 hnum h34
    by_cases hc : pyContainsChar s '.' = true
    · rw [if_pos hc] at hnum
      rcases h34 with h3 | h3 <;> simp [parseValue, h1, h2, hc, hnum, h3]
    · rw [if_neg hc] at hnum
      rcases h34 with h3 | h3 <;>
        simp [parseValue, h1, h2, Bool.of_not_eq_true hc, hnum, h3]
  · intro s h1 h2 hnum h3 h4
    by_cases hc : pyContainsChar s '.' = true
    · rw [if_pos hc] at hnum
      simp [parseValue, h1, h2, hc, hnum, h3, h4]
    · rw [if_neg hc] at hnum
      simp [parseValue, h1, h2, Bool.of_not_eq_true hc, hnum, h3, h4]

/-- Witness for C7 at one token of each coercion class. -/
theorem c7_witness :
    parseValue "TRUE" = .bool true ∧ parseValue "3" = .int 3 ∧
    parseValue "2.5" = .float ⟨25, -1⟩ ∧ parseValue "none" = .null ∧
    parseValue "abc" = .str "abc" :=
  ⟨c7_parse_value_coercion.1 "TRUE" (by decide),
   c7_parse_value_coercion.2.2.1 "3" 3 (by decide) (by decide) (by decide)
     (by decide),
   c7_parse_value_coercion.2.2.2.1 "2.5" ⟨25, -1⟩ (by decide) (by decide)
     (by decide) (by decide),
   c7_parse_value_coercion.2.2.2.2.1 "none" (by decide) (by decide)
     (by decide) (Or.inl (by decide)),
   c7_parse_value_coercion.2.2.2.2.2.1 "abc" (by decide) (by decide)
     (by decide) (by decide) (by decide)⟩

/-- With an empty parameter schema no validation error is ever produced. -/
theorem validationErrors_of_no_parameters (parsed : ParsedCommand)
    (command : RegisteredCommand) (h : command.metadata.parameters = []) :
    validationErrors parsed command = [] := by
  simp only [validationErrors, h, List.filterMap_nil, List.nil_append]
  rw [List.filterMap_eq_nil_iff]
  intro kv _
  simp [kwargError, alookup]

/-- Claim C5: validation accumulates every violation — every required
parameter supplied neither as a keyword nor positionally (the source tests
the positional list as a whole: `len(parsed.args) == 0`) contributes its
message, every supplied keyword whose coerced value fails its declared type
contributes its message, and the single error string joins *all* of them, so
validation fails exactly when at least one violation exists. -/
theorem c5_validation_accumulates (parsed : ParsedCommand)
    (command : RegisteredCommand) :
    (∀ (pname : String) (pinfo : ParamInfo),
      (pname, pinfo) ∈ command.metadata.parameters → pinfo.required = true →
      alookup parsed.kwargs pname = none → parsed.args = [] →
      ("Required parameter " ++ sq ++ pname ++ sq ++ " is missing") ∈
        validationErrors parsed command) ∧
    (∀ (k : String) (v : Value) (pinfo : ParamInfo),
      (k, v) ∈ parsed.kwargs →
      alookup command.metadata.parameters k = some pinfo →
      validateType v pinfo.ty = false →
      ("Parameter " ++ sq ++ k ++ sq ++ " should be of type " ++ pinfo.ty) ∈
        validationErrors parsed command) ∧
    (validationErrors parsed command ≠ [] →
      (validateCommandArguments parsed command).valid = false ∧
      (validateCommandArguments parsed command).error =
        some (joinSemi (validationErrors parsed command))) ∧
    (validationErrors parsed command = [] →
      (validateCommandArguments parsed command).valid = true) := by
  refine ⟨?_, ?_, ?_, ?_⟩
  · intro pname pinfo hmem hreq hkw hargs
    refine List.mem_append_left _ (List.mem_filterMap.mpr ⟨(pname, pinfo),
      hmem, ?_⟩)
    simp [requiredError, hreq, hkw, hargs]
  · intro k v pinfo hmem hpk hval
    refine List.mem_append_right _ (List.mem_filterMap.mpr ⟨(k, v), hmem, ?_⟩)
    simp [kwargError, hpk, hval]
  · intro hne
    have hp : command.metadata.parameters ≠ [] := by
      intro hp
      exact hne (validationErrors_of_no_parameters parsed command hp)
    simp [validateCommandArguments, hp, hne]
  · intro hnil
    by_cases hp : command.metadata.parameters = []
    · simp [validateCommandArguments, hp]
    · simp [validateCommandArguments, hp, hnil]

/-- Witness for C5: a command with two required parameters, invoked with
neither supplied, accumulates both messages and fails with their join. -/
theorem c5_witness :
    ("Required parameter " ++ sq ++ "p1" ++ sq ++ " is missing") ∈
      validationErrors noneSuppliedParsed twoRequiredCmd ∧
    ("Required parameter " ++ sq ++ "p2" ++ sq ++ " is missing") ∈
      validationErrors noneSuppliedParsed twoRequiredCmd ∧
    (validateCommandArguments noneSuppliedParsed twoRequiredCmd).valid =
      false ∧
    (validateCommandArguments noneSuppliedParsed twoRequiredCmd).error =
      some (joinSemi (validationErrors noneSuppliedParsed twoRequiredCmd)) := by
  have h := c5_validation_accumulates noneSuppliedParsed twoRequiredCmd
  have hacc := h.2.2.1 (by decide)
  exact ⟨h.1 "p1" { ty := "str", required := true } (by decide) rfl (by decide)
      rfl,
    h.1 "p2" { ty := "int", required := true } (by decide) rfl (by decide) rfl,
    hacc.1, hacc.2⟩

/-- Claim C6 as amended: a `--` token without `=` consumes the following
token as its value whenever one exists — even a token that itself looks like
a flag — and is a boolean presence flag only when it is the final token. -/
theorem c6_long_flag_consumes_any_next_token (tok next : String)
    (rest : List String) (args : List Value) (kwargs : List (String × Value))
    (h1 : pyStartsWith tok "--" = true)
    (h2 : pyContainsChar (pyDrop tok 2) '=' = false) :
    parseLoop (tok :: next :: rest) args kwargs =
      parseLoop rest args (ainsert kwargs (pyDrop tok 2) (parseValue next)) ∧
    parseLoop [tok] args kwargs =
      (args, ainsert kwargs (pyDrop tok 2) (.bool true)) := by
  constructor
  · simp [parseLoop, h1, h2]
  · simp [parseLoop, h1, h2]

/-- Witness for the amended C6 at the counterexample's tokens. -/
theorem c6_witness :
    parseLoop ["--a", "--b=1"] [] [] =
      parseLoop [] [] (ainsert [] (pyDrop "--a" 2) (parseValue "--b=1")) ∧
    parseLoop ["--a"] [] [] =
      ([], ainsert [] (pyDrop "--a" 2) (.bool true)) :=
  c6_long_flag_consumes_any_next_token "--a" "--b=1" [] [] [] (by decide)
    (by decide)

/-- Claim C8 as amended: the not-found envelope carries only the success flag
and the error; when the agent exists, the envelope carries success, result or
error, the agent name, and the timestamp — with `success = false` and the
exception's message in `error` when `execute` raises. -/
theorem c8_execute_agent_envelope (reg : AgentRegistryS) (agentName : String)
    (inputData : Value) (now : String) :
    (alookup reg.agents agentName = none →
      executeAgent reg agentName inputData now =
        { success := false
          error := some ("Agent " ++ dq ++ agentName ++ dq ++
                         " not found") }) ∧
    (∀ ag : Agent, alookup reg.agents agentName = some ag →
      (executeAgent reg agentName inputData now).agent = some agentName ∧
      (executeAgent reg agentName inputData now).timestamp = some now ∧
      ((∃ v, ag.execute inputData = .ok v ∧
          executeAgent reg agentName inputData now =
            { success := true, result := some v, agent := some agentName,
              timestamp := some now }) ∨
        (∃ e, ag.execute inputData = .error e ∧
          executeAgent reg agentName inputData now =
            { success := false, error := some e, agent := some agentName,
              timestamp := some now }))) := by
  constructor
  · intro h
    simp [executeAgent, h]
  · intro ag h
    cases hex : ag.execute inputData with
    | ok v =>
      refine ⟨by simp [executeAgent, h, hex], by simp [executeAgent, h, hex],
        Or.inl ⟨v, rfl, by simp [executeAgent, h, hex]⟩⟩
    | error e =>
      refine ⟨by simp [executeAgent, h, hex], by simp [executeAgent, h, hex],
        Or.inr ⟨e, rfl, by simp [executeAgent, h, hex]⟩⟩


/-- Witness for the amended C8: an agent whose `execute` raises yields a full
envelope with `success = false` and the exception's message. -/
theorem c8_witness :
    (executeAgent throwingAgentRegistry "a" .null "T0").success = false ∧
    (executeAgent throwingAgentRegistry "a" .null "T0").error =
      some "agent boom" ∧
    (executeAgent throwingAgentRegistry "a" .null "T0").agent = some "a" ∧
    (executeAgent throwingAgentRegistry "a" .null "T0").timestamp =
      some "T0" := by
  have h := (c8_execute_agent_envelope throwingAgentRegistry "a" .null
    "T0").2 throwingAgent (by simp [throwingAgentRegistry, alookup])
  rcases h.2.2 with ⟨v, hv, _⟩ | ⟨e, he, heq⟩
  · simp [throwingAgent] at hv
  · have he' : e = "agent boom" := by
      simpa [throwingAgent] using he.symm
    subst he'
    exact ⟨by rw [heq], by rw [heq], h.1, h.2.1⟩

/-- A context passing `execute_parsed_command`'s project check also passes
`execute_command`'s (which reads the dict defaulted to empty). -/
theorem ctxProjTruthy_of_ctxHasProject
    (ctx : Option (List (String × Value))) (h : ctxHasProject ctx = true) :
    ctxProjTruthy (ctx.getD []) = true := by
  cases ctx with
  | none => simp [ctxHasProject] at h
  | some d =>
    simp only [ctxHasProject, Bool.and_eq_true] at h
    simpa using h.2

/-- Claim C1: `execute_string` is total by construction (every failure path,
including a tokenizer exception, is mapped to a `CommandResult`), and when
the parsed name resolves to an enabled entry that reaches its handler and the
handler raises, the result has `success = false` and an error string ending
in the handler exception's message. -/
theorem c1_execute_string_contains_handler_message
    (reg : CommandRegistry) (s : String)
    (ctx : Option (List (String × Value))) (parsed : ParsedCommand)
    (command : RegisteredCommand) (msg : String)
    (hparse : parseCommandString s = .ok (some parsed))
    (hget : getCommand reg parsed.name = some command)
    (hh : command.handler = .throws msg)
    (hen : command.enabled = true)
    (hproj : command.metadata.requiresProject = true →
      ctxHasProject ctx = true)
    (hval : (validateCommandArguments parsed command).valid = true) :
    (executeString reg s ctx).success = false ∧
    (executeString reg s ctx).error =
      some ("Command execution failed: " ++
        ("Command " ++ sq ++ parsed.name ++ sq ++ " execution failed: " ++
          msg)) := by
  have hrp1 : ¬(command.metadata.requiresProject = true ∧
      ¬ctxHasProject ctx = true) := by
    rintro ⟨h1, h2⟩
    exact h2 (hproj h1)
  have hrp2 : ¬(command.metadata.requiresProject = true ∧
      ¬ctxProjTruthy (ctx.getD []) = true) := by
    rintro ⟨h1, h2⟩
    exact h2 (ctxProjTruthy_of_ctxHasProject ctx (hproj h1))
  have hexec : executeCommand reg parsed.name parsed.args parsed.kwargs
      (ctx.getD []) =
      .error ("Command " ++ sq ++ parsed.name ++ sq ++
        " execution failed: " ++ msg) := by
    simp only [executeCommand, hget]
    rw [if_neg (fun hc => hc hen), if_neg hrp2, hh]
    simp [runHandler]
  have hparsed : executeParsedCommand reg parsed ctx =
      { success := false
        error := some ("Command execution failed: " ++
          ("Command " ++ sq ++ parsed.name ++ sq ++ " execution failed: " ++
            msg))
        commandName := parsed.name } := by
    simp only [executeParsedCommand, hget]
    rw [if_neg (fun hc => hc hen), if_neg hrp1,
      if_neg (fun hc => hc hval), hexec]
  simp [executeString, hparse, hparsed]

/-- Witness for C1: the command `boom` whose handler raises `kaboom`. -/
theorem c1_witness :
    (executeString boomRegistry "/boom" none).success = false ∧
    (executeString boomRegistry "/boom" none).error =
      some ("Command execution failed: " ++
        ("Command " ++ sq ++ "boom" ++ sq ++ " execution failed: " ++
          "kaboom")) :=
  c1_execute_string_contains_handler_message boomRegistry "/boom" none
    ⟨"boom", [], [], "/boom"⟩ boomCmd "kaboom" (by decide) (by decide)
    (by decide) (by decide) (by decide) (by decide)

/-- Claim C4 as amended: when no declared alias was already a registry key at
registration time, every alias resolves to the same entry (the same store
reference) as the primary name, and this persists through any sequence of
enable/disable toggles on the primary name. -/
theorem c4_alias_consistency (reg : CommandRegistry) (name : String)
    (handler : Handler) (description category : String)
    (aliases : List String) (parameters : List (String × ParamInfo))
    (examples tags : List String) (requiresProject hidden : Bool)
    (version : String) (toggles : List Bool) (reg1 reg2 : CommandRegistry)
    (hfresh : ∀ a ∈ aliases, alookup reg.commands a = none)
    (hreg1 : reg1 = registerCommand reg name handler description category
      aliases parameters examples tags requiresProject hidden version)
    (hreg2 : reg2 = applyToggles reg1 name toggles) :
    ∀ a ∈ aliases,
      getRef reg2 a = getRef reg2 name ∧
      getCommand reg2 a = getCommand reg2 name := by
  intro a ha
  have hc2 : reg2.commands = reg1.commands := by
    rw [hreg2]
    exact applyToggles_commands_eq reg1 name toggles
  have hname : alookup reg1.commands name = some reg.store.length := by
    subst hreg1
    simp only [registerCommand]
    exact aliasFold_preserves aliases _ reg.store.length name reg.store.length
      (alookup_ainsert_self reg.commands name reg.store.length)
  have halias : alookup reg1.commands a = some reg.store.length := by
    by_cases han : a = name
    · rw [han]
      exact hname
    · subst hreg1
      simp only [registerCommand]
      refine aliasFold_binds aliases _ reg.store.length a ?_ ha
      rw [alookup_ainsert_ne reg.commands name a reg.store.length han]
      exact hfresh a ha
  constructor
  · simp only [getRef]
    rw [hc2, hname, halias]
  · simp only [getCommand]
    rw [hc2, hname, halias]

/-- Witness for the amended C4: register `n` with fresh alias `a`, then
disable and re-enable `n`; `a` still resolves to the same entry as `n`. -/
theorem c4_witness :
    getRef (applyToggles (registerCommand emptyRegistry "n" (.ok .null) "d"
        "general" ["a"] [] [] [] false false "1.0.0") "n" [false, true])
      "a" =
      getRef (applyToggles (registerCommand emptyRegistry "n" (.ok .null) "d"
        "general" ["a"] [] [] [] false false "1.0.0") "n" [false, true])
        "n" ∧
    getCommand (applyToggles (registerCommand emptyRegistry "n" (.ok .null)
        "d" "general" ["a"] [] [] [] false false "1.0.0") "n" [false, true])
      "a" =
      getCommand (applyToggles (registerCommand emptyRegistry "n" (.ok .null)
        "d" "general" ["a"] [] [] [] false false "1.0.0") "n" [false, true])
        "n" :=
  c4_alias_consistency emptyRegistry "n" (.ok .null) "d" "general" ["a"] []
    [] [] false false "1.0.0" [false, true] _ _ (by decide) rfl rfl "a"
    (by decide)

/-- Claim C9: in a unique-key registry state where `n`'s entry `E` has alias
set `A` all resolving to `E`, unregistering through an alias `a ∈ A` returns
`True` and deletes every alias key in `A`, while the primary key `n`
survives and still resolves to `E`. -/
theorem c9_unregister_via_alias_keeps_primary (reg : CommandRegistry)
    (n a : String) (r : Nat) (E : RegisteredCommand) (A : List String)
    (hnodup : (reg.commands.map Prod.fst).Nodup)
    (hn : alookup reg.commands n = some r)
    (hE : deref reg r = E)
    (hal : E.metadata.aliases = A)
    (haA : a ∈ A) (hnA : n ∉ A)
    (hall : ∀ b ∈ A, alookup reg.commands b = some r) :
    (unregisterCommand reg a).2 = true ∧
    (∀ b ∈ A, alookup (unregisterCommand reg a).1.commands b = none) ∧
    getCommand (unregisterCommand reg a).1 n = some E := by
  have ha : alookup reg.commands a = some r := hall a haA
  have hna : n ≠ a := fun hc => hnA (hc ▸ haA)
  have hres : (unregisterCommand reg a).2 = true := by
    simp [unregisterCommand, ha]
  have hcomm : (unregisterCommand reg a).1.commands =
      (a :: A).foldl (fun c al =>
        if (alookup c al).isSome then aremove c al else c) reg.commands := by
    simp [unregisterCommand, ha, hE, hal]
  have hstore : (unregisterCommand reg a).1.store = reg.store := by
    simp [unregisterCommand, ha]
  refine ⟨hres, ?_, ?_⟩
  · intro b hb
    rw [hcomm]
    exact removeFold_removes (a :: A) reg.commands hnodup b
      (List.mem_cons_of_mem a hb)
  · have hpres : alookup ((a :: A).foldl (fun c al =>
        if (alookup c al).isSome then aremove c al else c) reg.commands) n =
        some r := by
      rw [removeFold_preserves_other (a :: A) reg.commands n
        (by simp [hna, hnA])]
      exact hn
    have hder : deref (unregisterCommand reg a).1 r = E := by
      simp only [deref]
      rw [hstore]
      simpa [deref] using hE
    simp only [getCommand, hcomm, hpres]
    simp [hder]

/-- Witness for C9: unregister via alias `a1` of `n`; both aliases vanish,
`n` still resolves to its entry. -/
theorem c9_witness :
    (unregisterCommand unregRegistry "a1").2 = true ∧
    alookup (unregisterCommand unregRegistry "a1").1.commands "a1" = none ∧
    alookup (unregisterCommand unregRegistry "a1").1.commands "a2" = none ∧
    getCommand (unregisterCommand unregRegistry "a1").1 "n" =
      some unregEntry := by
  have h := c9_unregister_via_alias_keeps_primary unregRegistry "n" "a1" 0
    unregEntry ["a1", "a2"] (by decide) (by decide) (by decide) (by decide)
    (by decide) (by decide) (by decide)
  exact ⟨h.1, h.2.1 "a1" (by decide), h.2.1 "a2" (by decide), h.2.2⟩

end SpecKit
